import Mathlib

/-!
Shallow embedding of the hls-live-thumbnails pipeline.

Part 1 embeds ThumbnailGenerator (thumbnail-generator.js): playlist change
detection, the next-thumbnail-time computation, the segment walk that emits
thumbnails, and the playlist retry loop.

Part 2 embeds SimpleThumbnailGenerator (simple-thumbnail-generator.js): the
removal timeline, the listeners for playlistChanged and newThumbnail, the
periodic GC, and the thumbnail query functions.

Durations and wall-clock instants are modelled as rationals; JS numbers are
floats, but every claim here is about exact comparisons and sums over values
the code never rounds. Sequence numbers are naturals.
-/

namespace HLSThumb

/-- One playlist segment; only the duration is relevant to scheduling
(the uri is consumed by the frame extractor, which is external). -/
structure Segment where
  duration : ℚ
  deriving DecidableEq

/-- Parsed playlist properties, as produced by the m3u8 parser: the
mediaSequence and targetDuration tags may be absent, foundEndlist is set when
EXT-X-ENDLIST was seen. -/
structure PlaylistProps where
  mediaSequence : Option ℕ
  targetDuration : Option ℚ
  foundEndlist : Bool
  deriving DecidableEq

/-- A parsed playlist snapshot: properties plus the segment list
(parsed.items.PlaylistItem in the source). -/
structure Playlist where
  properties : PlaylistProps
  segments : List Segment
  deriving DecidableEq

/-- A generated thumbnail as emitted by ThumbnailGenerator: sequence number,
output file name and time into the segment. The source also stores this
object as this._lastLocation. -/
structure GThumb where
  sn : ℕ
  name : String
  time : ℚ
  deriving DecidableEq

/-- ThumbnailGenerator._calculateSegmentStartTime: sum of the durations of the
first i segments. The source throws when i exceeds the segment count; every
call site in the model passes i at most the length. -/
def calcStartTime (segments : List Segment) (i : ℕ) : ℚ :=
  ((segments.take i).map Segment.duration).sum

/-- Helper for getSegmentInfoAtTime: walks the segments accumulating start
times, returning the index and start time of the first segment whose end time
exceeds the target time. -/
def segInfoGo (t : ℚ) : ℕ → ℚ → List Segment → Option (ℕ × ℚ)
  | _, _, [] => none
  | i, acc, s :: rest =>
    if acc + s.duration > t then some (i, acc) else segInfoGo t (i + 1) (acc + s.duration) rest

/-- ThumbnailGenerator._getSegmentInfoAtTime: the segment containing the given
playlist time, with its start time, or none when the time is past the end. -/
def getSegmentInfoAtTime (segments : List Segment) (t : ℚ) : Option (ℕ × ℚ) :=
  segInfoGo t 0 0 segments

/-- Number of frame offsets the ffmpeg loop in _generateThumbnailsWithFfmpeg
issues: offsets t0, t0 + I, t0 + 2I, ... strictly below the segment duration.
For I at most 0 and t0 below d the JS while loop would not terminate; the
model returns 0 there, and claims about the walk assume a positive interval. -/
def numFrames (t0 d I : ℚ) : ℕ :=
  if 0 < I then (⌈(d - t0) / I⌉).toNat else 0

/-- Thumbnail file name schema: prefix, sequence number, frame index. -/
def mkName (pre : String) (sn i : ℕ) : String :=
  pre ++ "-" ++ toString sn ++ "-" ++ toString i ++ ".jpg"

/-- ThumbnailGenerator._generateThumbnails for one segment, after the segment
bytes were fetched: produces one GThumb per frame index that the extractor
reports as existing (the ok oracle; a missing frame near the end of the file
is dropped, and a whole-segment fetch or ffmpeg failure is the oracle being
false on every index, which has the same effect on state and events). -/
def genFrames (ok : ℕ → ℕ → Bool) (pre : String) (sn : ℕ) (t0 d I : ℚ) : List GThumb :=
  (List.range (numFrames t0 d I)).filterMap fun i =>
    if ok sn i then some ⟨sn, mkName pre sn i, t0 + I * i⟩ else none

/-- The handleSegment loop of _grabThumbnails: walks the remaining segments
from absolute index i, threading the accumulated time, the next thumbnail
time and the last location. For each segment whose end time exceeds the next
thumbnail time it extracts frames from offset max 0 (nextTime - startTime);
each produced frame advances lastLocation and nextTime. -/
def walkSegs (ok : ℕ → ℕ → Bool) (pre : String) (I : ℚ) (firstSN : ℕ) :
    List Segment → ℕ → ℚ → ℚ → Option GThumb → Option GThumb × List GThumb
  | [], _, _, _, lastLoc => (lastLoc, [])
  | seg :: rest, i, time, nextTime, lastLoc =>
    let startTime := time
    let endTime := time + seg.duration
    if endTime > nextTime then
      let t0 := max 0 (nextTime - startTime)
      let frames := genFrames ok pre (firstSN + i) t0 seg.duration I
      match frames.getLast? with
      | some lastF =>
        let res := walkSegs ok pre I firstSN rest (i + 1) endTime (startTime + lastF.time + I) (some lastF)
        (res.1, frames ++ res.2)
      | none => walkSegs ok pre I firstSN rest (i + 1) endTime nextTime lastLoc
    else
      walkSegs ok pre I firstSN rest (i + 1) endTime nextTime lastLoc

/-- The index of the last-location segment inside the current window
(lines 182-189 of thumbnail-generator.js): lastLocation.sn - firstSN, kept
when it is between 0 and segments.length inclusive, reset to none otherwise.
The source compares with a strict greater-than against the length, so the
value length itself passes the check. -/
def inWindowIdx (lastLoc : Option GThumb) (firstSN len : ℕ) : Option ℕ :=
  match lastLoc with
  | none => none
  | some loc =>
    let idx : ℤ := (loc.sn : ℤ) - (firstSN : ℤ)
    if 0 ≤ idx ∧ idx ≤ (len : ℤ) then some idx.toNat else none

/-- The next thumbnail time when there is no usable last location
(lines 196-202): 0 when initialThumbnailCount is unset (the source tests
falsiness, so an explicit 0 also counts as unset), otherwise
max 0 (duration - initialThumbnailCount * interval). -/
def nextThumbTimeFresh (I : ℚ) (initCount : Option ℚ) (duration : ℚ) : ℚ :=
  if initCount.getD 0 = 0 then 0 else max 0 (duration - initCount.getD 0 * I)

/-- The next-thumbnail-time computation of _grabThumbnails (lines 181-202).
When the last location index equals segments.length the source reads
segments[length].properties and throws; that path is modelled as none and the
caller treats it as the caught exception. In the in-window branch the source
computes nextSegmentStartTime + interval - segment.duration - lastLocation.time
with no parentheses around the last two terms. -/
def nextThumbTime (I : ℚ) (initCount : Option ℚ) (lastLoc : Option GThumb)
    (firstSN : ℕ) (segments : List Segment) (duration : ℚ) : Option ℚ :=
  match inWindowIdx lastLoc firstSN segments.length, lastLoc with
  | some idx, some loc =>
    match segments[idx]? with
    | some seg => some (calcStartTime segments (idx + 1) + I - seg.duration - loc.time)
    | none => none
  | _, _ => some (nextThumbTimeFresh I initCount duration)

/-- Mutable state of a ThumbnailGenerator relevant to scheduling. The
outputNameStem field is the outputNamePrefix of the source. -/
structure TGState where
  interval : Option ℚ
  targetThumbnailCount : Option ℚ
  initialThumbnailCount : Option ℚ
  lastLocation : Option GThumb
  parsedPlaylist : Option Playlist
  playlistEnded : Bool
  endedEventEmitted : Bool
  segmentTargetDuration : Option ℚ
  destroyed : Bool
  outputNameStem : String
  deriving DecidableEq

/-- Events emitted by ThumbnailGenerator during one _grabThumbnails tick. -/
inductive TGEvent where
  | playlistChanged (p : Playlist)
  | newThumbnail (t : GThumb)
  | playlistEnded
  | playlistRemoved
  deriving DecidableEq

/-- ThumbnailGenerator._hasPlaylistChanged: unchanged exactly when a previous
snapshot exists and agrees on segment count and on mediaSequence with 0 as
the default for an absent tag. -/
def hasPlaylistChanged (st : TGState) (newP : Playlist) : Bool :=
  !(match st.parsedPlaylist with
    | some old =>
      old.segments.length == newP.segments.length &&
        old.properties.mediaSequence.getD 0 == newP.properties.mediaSequence.getD 0
    | none => false)

/-- The trailing then-block of _grabThumbnails (lines 266-269): emit
playlistEnded once, after the tick, when the ended flag is set. -/
def finalThen (st : TGState) (evs : List TGEvent) : TGState × List TGEvent :=
  if st.playlistEnded && !st.endedEventEmitted then
    ({ st with endedEventEmitted := true }, evs ++ [TGEvent.playlistEnded])
  else (st, evs)

/-- The changed-playlist branch of _grabThumbnails (lines 164-258): store the
snapshot, emit playlistChanged, recompute the interval from
targetThumbnailCount when configured, compute the next thumbnail time, find
the starting segment and run the walk. A none from nextThumbTime is the
caught TypeError from indexing one past the window; a none from
getSegmentInfoAtTime is the next thumbnail segment not being available yet. -/
def processChanged (ok : ℕ → ℕ → Bool) (st : TGState) (parsed : Playlist) :
    TGState × List TGEvent :=
  let firstSN := parsed.properties.mediaSequence.getD 0
  let segments := parsed.segments
  let st1 : TGState :=
    { st with
      parsedPlaylist := some parsed
      segmentTargetDuration := parsed.properties.targetDuration
      playlistEnded := parsed.properties.foundEndlist }
  let duration := calcStartTime segments segments.length
  let st2 : TGState :=
    match st1.targetThumbnailCount with
    | some c => if c = 0 then st1 else { st1 with interval := some (duration / c) }
    | none => st1
  let I := st2.interval.getD 0
  match nextThumbTime I st2.initialThumbnailCount st2.lastLocation firstSN segments duration with
  | none => finalThen st2 [TGEvent.playlistChanged parsed]
  | some nextTime =>
    match getSegmentInfoAtTime segments nextTime with
    | none => finalThen st2 [TGEvent.playlistChanged parsed]
    | some (idx0, startT) =>
      let res := walkSegs ok st2.outputNameStem I firstSN (segments.drop idx0) idx0 startT nextTime st2.lastLocation
      finalThen { st2 with lastLocation := res.1 }
        (TGEvent.playlistChanged parsed :: res.2.map TGEvent.newThumbnail)

/-- One _grabThumbnails tick after the playlist fetch resolved: fetched is the
poll result (none meaning the playlist is gone). On gone the source emits
playlistRemoved and destroys itself; when the ended flag is already set or the
snapshot is unchanged the tick does nothing except the one-shot ended event. -/
def grabStep (ok : ℕ → ℕ → Bool) (st : TGState) (fetched : Option Playlist) :
    TGState × List TGEvent :=
  if st.destroyed then (st, [])
  else
    match fetched with
    | none => ({ st with destroyed := true }, [TGEvent.playlistRemoved])
    | some parsed =>
      if st.playlistEnded then finalThen st []
      else if hasPlaylistChanged st parsed then processChanged ok st parsed
      else finalThen st []

/-- Outcome of one playlist fetch attempt: a parsed playlist, a 404 status,
or any other failure (network error, non-2xx status, parse error). -/
inductive FetchOutcome where
  | ok (p : Playlist)
  | notFound
  | err
  deriving DecidableEq

/-- Observable trace of one _getPlaylist call: the resolved value (none means
gone), how many fetch attempts were made, and the waits inserted between
consecutive attempts, in milliseconds. -/
structure PollTrace where
  result : Option Playlist
  attempts : ℕ
  waits : List ℕ
  deriving DecidableEq

/-- The retry loop of ThumbnailGenerator._getPlaylist. resp gives the outcome
of attempt number idx (0-based); left is how many attempts may still be made.
A 404 resolves to gone at once when shortOn404 is set; other failures wait
5000 ms and retry while attempts remain, and exhaustion resolves to gone. -/
def pollLoop (resp : ℕ → FetchOutcome) (shortOn404 : Bool) : ℕ → ℕ → PollTrace
  | _, 0 => ⟨none, 0, []⟩
  | idx, left + 1 =>
    match resp idx with
    | FetchOutcome.ok p => ⟨some p, idx + 1, []⟩
    | FetchOutcome.notFound =>
      if shortOn404 then ⟨none, idx + 1, []⟩
      else if left = 0 then ⟨none, idx + 1, []⟩
      else
        let t := pollLoop resp shortOn404 (idx + 1) left
        ⟨t.result, t.attempts, 5000 :: t.waits⟩
    | FetchOutcome.err =>
      if left = 0 then ⟨none, idx + 1, []⟩
      else
        let t := pollLoop resp shortOn404 (idx + 1) left
        ⟨t.result, t.attempts, 5000 :: t.waits⟩

/-- ThumbnailGenerator._getPlaylist as written (lines 443-479): the attempt
budget is the literal 3 and a 404 always resolves to gone immediately; the
ignorePlaylist404 and playlistRetryCount options the repository CLI declares
and passes in are never consulted. -/
def getPlaylistCode (resp : ℕ → FetchOutcome) : PollTrace :=
  pollLoop resp true 0 3

/-- Reference model of the retry policy as the repository documents it (the
CLI option help for playlistRetryCount and ignorePlaylist404): up to
retryCount + 1 attempts with a 5 second wait between attempts, a 404 aborting
immediately only when ignore404 is not set, gone on exhaustion. -/
def specPoll (retryCount : ℕ) (ignore404 : Bool) (resp : ℕ → FetchOutcome) : PollTrace :=
  pollLoop resp (!ignore404) 0 (retryCount + 1)

/-- A thumbnail entry of a SegmentRecord in SimpleThumbnailGenerator:
time into the segment and file name. -/
structure SThumb where
  time : ℚ
  name : String
  deriving DecidableEq

/-- A SegmentRecord of SimpleThumbnailGenerator. The source never assigns
removalTime on these records (the field appears only in the typedef and in
the getThumbnails copy), so it stays none; it is kept for the copy claims. -/
structure SegRecord where
  sn : ℕ
  removalTime : Option ℚ
  thumbnails : List SThumb
  deriving DecidableEq

/-- Mutable state of a SimpleThumbnailGenerator: the removal timeline
(offset and times), the segment records, the gone flag, the destroyed flag
and the configured expireTime in seconds. -/
structure SGState where
  offset : Option ℕ
  times : List ℚ
  segments : List SegRecord
  playlistRemoved : Bool
  destroyed : Bool
  expireTime : ℚ
  deriving DecidableEq

/-- Events emitted through SimpleThumbnailGenerator._emit. The undefinedEvent
constructor is the value the source actually hands to _emit on a new
thumbnail: the listener executes this._emit("newThumbnail". thumbnail), a
property access on the string literal, which evaluates to undefined. -/
inductive SEvent where
  | newThumbnail (t : GThumb)
  | undefinedEvent
  | thumbnailRemoved (t : SThumb)
  | thumbnailsChanged
  | playlistEnded
  | finished
  deriving DecidableEq

/-- SimpleThumbnailGenerator._emit: emission is suppressed once destroyed. -/
def emitIf (destroyed : Bool) (e : SEvent) : List SEvent :=
  if destroyed then [] else [e]

/-- SimpleThumbnailGenerator._markSegmentsAsRemoved: append one wall-clock
entry per sequence number from the next unrecorded one through
lastRemovedSn. A null offset coerces to 0 in the JS arithmetic. -/
def markSegmentsAsRemoved (st : SGState) (lastRemovedSn : ℤ) (now : ℚ) : SGState :=
  let nextRemovedSn : ℤ := (match st.offset with | some o => (o : ℤ) | none => 0) + st.times.length
  let numRemoved : ℕ := (max 0 (lastRemovedSn + 1 - nextRemovedSn)).toNat
  { st with times := st.times ++ List.replicate numRemoved now }

/-- The playlistChanged listener (lines 225-234 of the SimpleThumbnailGenerator
module): initialize the timeline offset to the first present sequence number
on the first changed playlist, then record every sequence number below it
that is not yet recorded as removed now. -/
def onPlaylistChanged (st : SGState) (mediaSequence : Option ℕ) (now : ℚ) : SGState :=
  let firstSn := mediaSequence.getD 0
  let st1 := if st.offset = none then { st with offset := some firstSn } else st
  markSegmentsAsRemoved st1 ((firstSn : ℤ) - 1) now

/-- The ordering the newThumbnail listener sorts a record by: ascending time
(the JS comparator a.time - b.time). -/
def thumbLE (a b : SThumb) : Prop := a.time ≤ b.time

instance : DecidableRel thumbLE := fun a b => inferInstanceAs (Decidable (a.time ≤ b.time))

/-- The newThumbnail listener (lines 250-270): drop the thumbnail when its
sequence number is below the timeline offset (already reaped; a null offset
coerces to 0 so nothing is dropped then), otherwise append it to the record
for its sequence number, creating the record on demand, and re-sort that
record by time. Returns the new state, whether the manifest was rewritten,
and the emitted events: the manifest write is followed by
this._emit("newThumbnail". thumbnail) - the dot makes the argument the
undefined property of a string, so the event actually emitted carries no
thumbnail and has the event type undefined - and then thumbnailsChanged. -/
def onNewThumbnail (st : SGState) (t : GThumb) : SGState × Bool × List SEvent :=
  let skip : Bool := match st.offset with | some o => decide (t.sn < o) | none => false
  if skip then (st, false, [])
  else
    let entry : SThumb := ⟨t.time, t.name⟩
    let segments :=
      if (st.segments.find? fun s => s.sn == t.sn).isSome then
        st.segments.map fun s =>
          if s.sn == t.sn then
            { s with thumbnails := List.insertionSort thumbLE (s.thumbnails ++ [entry]) }
          else s
      else
        st.segments ++ [⟨t.sn, none, List.insertionSort thumbLE [entry]⟩]
    ({ st with segments := segments }, true,
      emitIf st.destroyed SEvent.undefinedEvent ++ emitIf st.destroyed SEvent.thumbnailsChanged)

/-- The filter over the removal timeline in _gc (lines 293-299): drop every
entry at most the threshold, remembering offset + index of the last dropped
entry. Entries are visited left to right with running index i. -/
def gcFilterGo (threshold : ℚ) (offv : ℕ) : ℕ → Option ℕ → List ℚ → Option ℕ × List ℚ
  | _, hi, [] => (hi, [])
  | i, hi, t :: rest =>
    if t ≤ threshold then gcFilterGo threshold offv (i + 1) (some (offv + i)) rest
    else
      let res := gcFilterGo threshold offv (i + 1) hi rest
      (res.1, t :: res.2)

/-- The highest sequence number a GC run at the given instant reaps, together
with the surviving timeline entries. The threshold is computed exactly as the
source writes it: now plus expireTime seconds in milliseconds. -/
def gcReap (st : SGState) (now : ℚ) : Option ℕ × List ℚ :=
  gcFilterGo (now + st.expireTime * 1000) (st.offset.getD 0) 0 none st.times

/-- SimpleThumbnailGenerator._gc (lines 288-329): reap expired timeline
entries, advance the offset past the highest reaped sequence number, delete
every SegmentRecord at or below it (returning the file names whose unlink is
started; the per-file thumbnailRemoved and thumbnailsChanged emissions and
manifest rewrites happen in the asynchronous unlink callbacks and are not in
the synchronous event list), and when the playlist is gone and no records
remain emit finished and destroy. A run that reaps nothing returns before
any of this. -/
def gcRun (st : SGState) (now : ℚ) : SGState × List String × List SEvent :=
  match gcReap st now with
  | (none, kept) => ({ st with times := kept }, [], [])
  | (some hi, kept) =>
    let keptSegs := st.segments.filter fun s => !(s.sn ≤ hi)
    let deleted := st.segments.filter fun s => s.sn ≤ hi
    let files := deleted.flatMap fun s => s.thumbnails.map SThumb.name
    let st2 : SGState := { st with times := kept, offset := some (hi + 1), segments := keptSegs }
    if st2.playlistRemoved && keptSegs.isEmpty then
      ({ st2 with destroyed := true }, files, emitIf st.destroyed SEvent.finished)
    else (st2, files, [])

/-- SimpleThumbnailGenerator._getSnThumbnails without the create flag
(lines 366-379): the thumbnails of the record for sn when it exists, an empty
array when there is no record but sn is strictly above the timeline offset
(not yet reaped, just no thumbnails), null otherwise. A null offset coerces
to 0 in the comparison. -/
def getSnThumbnailsQ (st : SGState) (sn : ℕ) : Option (List SThumb) :=
  match st.segments.find? fun s => s.sn == sn with
  | some s => some s.thumbnails
  | none =>
    if (match st.offset with | some o => decide (o < sn) | none => decide (0 < sn)) then some []
    else none

/-- SimpleThumbnailGenerator.getThumbnailsForSn: the same lookup, with the
found array copied by slice(0) before being returned (copying is the identity
on the pure list value; the aliasing content of the copy is modelled by the
store-based getThumbnails below). -/
def getThumbnailsForSn (st : SGState) (sn : ℕ) : Option (List SThumb) :=
  (getSnThumbnailsQ st sn).map fun l => l

/-- A store of thumbnail arrays addressed by reference, modelling the JS heap
for the aliasing claim about getThumbnails: next is the first unallocated
reference. -/
structure ThumbStore where
  next : ℕ
  mem : ℕ → List SThumb

/-- Mutating the array behind one reference (a push, splice or similar on a
returned thumbnails array). -/
def writeRef (s : ThumbStore) (r : ℕ) (v : List SThumb) : ThumbStore :=
  ⟨s.next, fun n => if n = r then v else s.mem n⟩

/-- A SegmentRecord whose thumbnails array is held by reference into a
ThumbStore. -/
structure SegRecordRef where
  sn : ℕ
  removalTime : Option ℚ
  thumbsRef : ℕ

/-- SimpleThumbnailGenerator.getThumbnails (lines 190-198) over the reference
store: for each internal record allocate a fresh array holding a copy of the
record thumbnails (slice(0)) and return a fresh segment object carrying sn,
removalTime and the fresh reference. -/
def getThumbnails : ThumbStore → List SegRecordRef → ThumbStore × List SegRecordRef
  | s, [] => (s, [])
  | s, sr :: rest =>
    let fresh := s.next
    let s1 : ThumbStore := ⟨s.next + 1, fun n => if n = fresh then s.mem sr.thumbsRef else s.mem n⟩
    let res := getThumbnails s1 rest
    (res.1, ⟨sr.sn, sr.removalTime, fresh⟩ :: res.2)

/-- Concrete GC state: one timeline entry whose segment was removed at the
very instant the GC runs, with expireTime 10 seconds, and one record. -/
def exGcState : SGState := ⟨some 7, [1000000], [⟨7, none, [⟨0, "t-7-0.jpg"⟩]⟩], false, false, 10⟩

/-- Concrete playlist used in the retry and scheduler examples. -/
def exPlaylist : Playlist := ⟨⟨some 0, some 6, false⟩, [⟨6⟩]⟩

/-- Concrete fetch outcomes: the first attempt is a 404, every later attempt
succeeds. -/
def exResp : ℕ → FetchOutcome :=
  fun n => if n = 0 then FetchOutcome.notFound else FetchOutcome.ok exPlaylist

/-- Concrete SimpleThumbnailGenerator state with timeline offset 0 and no
records. -/
def exSgEmpty : SGState := ⟨some 0, [], [], false, false, 0⟩

/-- A concrete incoming thumbnail. -/
def exThumb : GThumb := ⟨1, "p-1-0.jpg", 2⟩

/-- Concrete state at which the gone flag is set, the timeline is drained and
no records remain: a GC run here reaps nothing and returns early. -/
def exGone : SGState := ⟨some 5, [], [], true, false, 0⟩

/-- Concrete state with the gone flag set and one reapable timeline entry:
the next GC run reaps it and emits finished. -/
def exFin : SGState := ⟨some 0, [0], [], true, false, 0⟩

/-- Concrete ThumbnailGenerator state that has already processed exPlaylist. -/
def exTgSeen : TGState := ⟨some 6, none, none, none, some exPlaylist, false, false, some 6, false, "p"⟩

/-- A frame-extraction oracle that always succeeds. -/
def exOk : ℕ → ℕ → Bool := fun _ _ => true

/-- Concrete reference store holding one thumbnails array at reference 0. -/
def exStore : ThumbStore := ⟨1, fun n => if n = 0 then [⟨0, "a.jpg"⟩] else []⟩

/-- Concrete internal record list pointing at reference 0. -/
def exRecords : List SegRecordRef := [⟨3, none, 0⟩]

/-- Claim C1: the GC threshold. The claim (with the source comments) says an
entry is reaped only once time + expireTime * 1000 is at most now; the code
compares time against now + expireTime * 1000, so an entry removed at the
instant of the run, with expireTime 10 seconds, is reaped at once: the run
drops the entry, advances the offset past it and deletes the record and its
file, even though time + expireTime * 1000 is not at most now. -/
theorem gc_expires_fresh_removal :
    gcRun exGcState 1000000
      = (⟨some 8, [], [], false, false, 10⟩, ["t-7-0.jpg"], []) ∧
    ¬((1000000 : ℚ) + 10 * 1000 ≤ 1000000) := by
  have h : gcReap exGcState 1000000 = (some 7, []) := by
    norm_num [gcReap, gcFilterGo, exGcState]
  refine ⟨?_, by norm_num⟩
  unfold gcRun
  rw [h]
  norm_num [exGcState]

/-- Claim C2: the next-thumbnail-time formula. With interval 6, a single
segment of duration 6 starting at S = 0 and a last location 5 seconds into
it, the code computes S + interval - lastLocation.time = 1 while the claim
says the scheduler computes S + lastLocation.time + interval = 11: the source
is missing the parentheses around (duration - lastLocation.time). -/
theorem nextThumbTime_drops_parentheses :
    nextThumbTime 6 none (some ⟨100, "x", 5⟩) 100 [⟨6⟩] 6 = some 1 ∧
    (0 : ℚ) + 5 + 6 ≠ 1 := by
  refine ⟨?_, by norm_num⟩
  norm_num [nextThumbTime, inWindowIdx, calcStartTime]

/-- Claim C3: the retry options. With ignorePlaylist404 set and the default
playlistRetryCount of 2, a 404 on the first attempt followed by a success
should be absorbed as a normal failure (two attempts, one 5 second wait, the
playlist resolved), but ThumbnailGenerator._getPlaylist never reads either
option: it resolves to gone after the single 404. -/
theorem getPlaylist_ignores_retry_options :
    getPlaylistCode exResp = ⟨none, 1, []⟩ ∧
    specPoll 2 true exResp = ⟨some exPlaylist, 2, [5000]⟩ ∧
    getPlaylistCode exResp ≠ specPoll 2 true exResp := by
  refine ⟨by decide, by decide, by decide⟩

/-- Claim C4: the newThumbnail emission. A thumbnail whose sequence number is
inside the window is appended to a freshly created record and the manifest is
rewritten, but the listener then executes this._emit("newThumbnail". thumbnail)
- a property access, not a call with two arguments - so the emitted event is
the undefined value with no thumbnail attached, and no newThumbnail event
carrying the thumbnail is ever emitted. -/
theorem onNewThumbnail_emits_undefined_event :
    onNewThumbnail exSgEmpty exThumb
      = ({ exSgEmpty with segments := [⟨1, none, [⟨2, "p-1-0.jpg"⟩]⟩] },
         true, [SEvent.undefinedEvent, SEvent.thumbnailsChanged]) ∧
    SEvent.newThumbnail exThumb ∉ (onNewThumbnail exSgEmpty exThumb).2.2 := by
  refine ⟨by decide, by decide⟩

/-- Claim C5, counterexample: at a state where the playlist is gone, the
timeline is already empty and no SegmentRecords remain, a GC run reaps
nothing and returns early without emitting finished, refuting the claimed
equivalence (gone and no records remaining after GC would require finished). -/
theorem finished_iff_refuted :
    ¬((SEvent.finished ∈ (gcRun exGone 0).2.2) ↔
      (exGone.playlistRemoved = true ∧ (gcRun exGone 0).1.segments = [])) := by
  decide

/-- With an unset timeline offset, the playlistChanged listener only
initializes the offset: the computation appends zero entries. -/
theorem onPlaylistChanged_offset_none (st : SGState) (ms : Option ℕ) (now : ℚ)
    (h : st.offset = none) :
    onPlaylistChanged st ms now = { st with offset := some (ms.getD 0) } := by
  unfold onPlaylistChanged markSegmentsAsRemoved
  rw [h]
  have hz : (max 0 ((ms.getD 0 : ℤ) - 1 + 1 - ((ms.getD 0 : ℤ) + (st.times.length : ℤ)))).toNat
      = 0 := by omega
  simp [hz]

/-- With a set timeline offset, the playlistChanged listener appends exactly
the entries for the not-yet-recorded sequence numbers below the first present
one. -/
theorem onPlaylistChanged_offset_some (st : SGState) (ms : Option ℕ) (now : ℚ) (o : ℕ)
    (h : st.offset = some o) :
    onPlaylistChanged st ms now
      = { st with times := st.times ++
            List.replicate (max 0 ((ms.getD 0 : ℤ) - o - st.times.length)).toNat now } := by
  unfold onPlaylistChanged markSegmentsAsRemoved
  rw [h]
  have harith : ∀ k : ℤ, (ms.getD 0 : ℤ) - 1 + 1 - ((o : ℤ) + k)
      = (ms.getD 0 : ℤ) - o - k := by intro k; ring
  simp [harith]
  refine ⟨h, ?_⟩
  rw [h]
  simp only []
  omega

/-- A destroyed generator emits nothing from a GC run: every emission goes
through the destroyed guard of _emit. -/
theorem gcRun_destroyed_silent (st : SGState) (now : ℚ) (h : st.destroyed = true) :
    (gcRun st now).2.2 = [] := by
  unfold gcRun
  rcases hr : gcReap st now with ⟨hi, kept⟩
  cases hi
  · simp
  · simp only []
    split <;> simp [emitIf, h]

/-- A destroyed generator emits nothing from the newThumbnail listener. -/
theorem onNewThumbnail_destroyed_silent (st : SGState) (t : GThumb) (h : st.destroyed = true) :
    (onNewThumbnail st t).2.2 = [] := by
  unfold onNewThumbnail
  simp only [emitIf, h]
  split <;> simp

/-- Claim C5, amended: a GC run emits finished exactly when the generator is
not destroyed, the playlist was observed gone, the run reaped at least one
timeline entry, and no SegmentRecords remain afterwards; on emission the
generator destroys itself at once, a destroyed generator emits no further
events (from GC runs or the newThumbnail listener), and in particular a
second GC run after a finished emission emits nothing, so finished fires at
most once. -/
theorem finished_emission_characterized (st : SGState) (now : ℚ) :
    (SEvent.finished ∈ (gcRun st now).2.2 ↔
      (st.destroyed = false ∧ st.playlistRemoved = true ∧
        (gcReap st now).1 ≠ none ∧ (gcRun st now).1.segments = [])) ∧
    (SEvent.finished ∈ (gcRun st now).2.2 → (gcRun st now).1.destroyed = true) ∧
    (st.destroyed = true → (gcRun st now).2.2 = []) ∧
    (∀ t, st.destroyed = true → (onNewThumbnail st t).2.2 = []) ∧
    (∀ now2, SEvent.finished ∈ (gcRun st now).2.2 →
      SEvent.finished ∉ (gcRun (gcRun st now).1 now2).2.2) := by
  have hfd : SEvent.finished ∈ (gcRun st now).2.2 → (gcRun st now).1.destroyed = true := by
    intro hmem
    rcases hr : gcReap st now with ⟨hi, kept⟩
    cases hi with
    | none => simp [gcRun, hr] at hmem
    | some hi =>
      by_cases hcnd :
          (st.playlistRemoved && (st.segments.filter (fun s => !(s.sn ≤ hi))).isEmpty) = true
      · simp [gcRun, hr, hcnd]
      · simp [gcRun, hr, hcnd] at hmem
  refine ⟨?_, hfd, gcRun_destroyed_silent st now, onNewThumbnail_destroyed_silent st, ?_⟩
  · rcases hr : gcReap st now with ⟨hi, kept⟩
    cases hi with
    | none => simp [gcRun, hr]
    | some hi =>
      by_cases hc :
          (st.playlistRemoved && (st.segments.filter (fun s => !(s.sn ≤ hi))).isEmpty) = true
      · rw [Bool.and_eq_true, List.isEmpty_iff] at hc
        obtain ⟨hrem, hempty⟩ := hc
        cases hd : st.destroyed
        · simp [gcRun, hr, emitIf, hd, hrem, hempty]
        · simp [gcRun, hr, emitIf, hd, hrem, hempty]
      · have hcb :
            (st.playlistRemoved && (st.segments.filter (fun s => !(s.sn ≤ hi))).isEmpty) = false := by
          rwa [Bool.not_eq_true] at hc
        rw [Bool.and_eq_true, List.isEmpty_iff] at hc
        have hrun : gcRun st now
            = ({ st with
                  times := kept
                  offset := some (hi + 1)
                  segments := st.segments.filter (fun s => !(s.sn ≤ hi)) },
                (st.segments.filter (fun s => s.sn ≤ hi)).flatMap
                  (fun s => s.thumbnails.map SThumb.name),
                []) := by
          simp [gcRun, hr, hcb]
        rw [hrun]
        simp only [not_and] at hc
        constructor
        · intro hmem
          simp at hmem
        · rintro ⟨-, hrem, -, hseg⟩
          exact absurd hseg (hc hrem)
  · intro now2 hmem
    have hsilent := gcRun_destroyed_silent (gcRun st now).1 now2 (hfd hmem)
    simp [hsilent]

/-- Witness for finished_emission_characterized at a state where the run does
emit finished: gone observed, one timeline entry reaped, no records left. -/
theorem finished_emission_characterized_witness :
    (SEvent.finished ∈ (gcRun exFin 1000 ).2.2 ↔
      (exFin.destroyed = false ∧ exFin.playlistRemoved = true ∧
        (gcReap exFin 1000).1 ≠ none ∧ (gcRun exFin 1000).1.segments = [])) ∧
    (SEvent.finished ∈ (gcRun exFin 1000).2.2 → (gcRun exFin 1000).1.destroyed = true) ∧
    (exFin.destroyed = true → (gcRun exFin 1000).2.2 = []) ∧
    (∀ t, exFin.destroyed = true → (onNewThumbnail exFin t).2.2 = []) ∧
    (∀ now2, SEvent.finished ∈ (gcRun exFin 1000).2.2 →
      SEvent.finished ∉ (gcRun (gcRun exFin 1000).1 now2).2.2) :=
  finished_emission_characterized exFin 1000

/-- Claim C6: on a changed playlist with first-present sequence number F, the
listener initializes the timeline offset to F when it was unset (appending
nothing), and otherwise keeps the offset, extends times by exactly one entry
with removal time now per sequence number below F not yet recorded, never
touching existing entries, so the set of recorded removed sequence numbers
becomes the old set united with the numbers below F. -/
theorem timeline_append_monotone (st : SGState) (ms : Option ℕ) (now : ℚ) :
    (st.offset = none →
      (onPlaylistChanged st ms now).offset = some (ms.getD 0) ∧
      (onPlaylistChanged st ms now).times = st.times) ∧
    (∀ o, st.offset = some o →
      (onPlaylistChanged st ms now).offset = some o ∧
      (onPlaylistChanged st ms now).times
        = st.times ++ List.replicate (max 0 ((ms.getD 0 : ℤ) - o - st.times.length)).toNat now ∧
      (∀ n : ℕ, n < o + (onPlaylistChanged st ms now).times.length
        ↔ (n < o + st.times.length ∨ n < ms.getD 0))) := by
  constructor
  · intro h
    rw [onPlaylistChanged_offset_none st ms now h]
    exact ⟨rfl, rfl⟩
  · intro o h
    rw [onPlaylistChanged_offset_some st ms now o h]
    refine ⟨h, rfl, ?_⟩
    intro n
    simp only [List.length_append, List.length_replicate]
    omega

/-- Witness for timeline_append_monotone at a concrete state with offset 3,
two timeline entries and an incoming playlist starting at sequence number 9. -/
theorem timeline_append_monotone_witness :
    ((⟨some 3, [4, 5], [], false, false, 0⟩ : SGState).offset = none →
      (onPlaylistChanged ⟨some 3, [4, 5], [], false, false, 0⟩ (some 9) 7).offset = some ((some 9).getD 0) ∧
      (onPlaylistChanged ⟨some 3, [4, 5], [], false, false, 0⟩ (some 9) 7).times
        = (⟨some 3, [4, 5], [], false, false, 0⟩ : SGState).times) ∧
    (∀ o, (⟨some 3, [4, 5], [], false, false, 0⟩ : SGState).offset = some o →
      (onPlaylistChanged ⟨some 3, [4, 5], [], false, false, 0⟩ (some 9) 7).offset = some o ∧
      (onPlaylistChanged ⟨some 3, [4, 5], [], false, false, 0⟩ (some 9) 7).times
        = (⟨some 3, [4, 5], [], false, false, 0⟩ : SGState).times ++
            List.replicate (max 0 (((some 9).getD 0 : ℤ) - o
              - (⟨some 3, [4, 5], [], false, false, 0⟩ : SGState).times.length)).toNat 7 ∧
      (∀ n : ℕ, n < o + (onPlaylistChanged ⟨some 3, [4, 5], [], false, false, 0⟩ (some 9) 7).times.length
        ↔ (n < o + (⟨some 3, [4, 5], [], false, false, 0⟩ : SGState).times.length ∨ n < (some 9).getD 0))) :=
  timeline_append_monotone ⟨some 3, [4, 5], [], false, false, 0⟩ (some 9) 7

/-- finalThen only touches the endedEventEmitted flag and the event list. -/
theorem finalThen_state (st : TGState) (evs : List TGEvent) :
    (finalThen st evs).1.parsedPlaylist = st.parsedPlaylist ∧
    (finalThen st evs).1.playlistEnded = st.playlistEnded ∧
    (finalThen st evs).1.destroyed = st.destroyed ∧
    (finalThen st evs).1.endedEventEmitted = (st.endedEventEmitted || st.playlistEnded) := by
  unfold finalThen
  split
  · next h =>
    rw [Bool.and_eq_true, Bool.not_eq_true'] at h
    simp [h.1, h.2]
  · next h =>
    rw [Bool.and_eq_true, Bool.not_eq_true'] at h
    refine ⟨rfl, rfl, rfl, ?_⟩
    cases he : st.playlistEnded
    · simp
    · cases hm : st.endedEventEmitted
      · exact absurd ⟨he, hm⟩ h
      · simp

/-- The changed-playlist branch stores the snapshot, takes the ended flag
from it, leaves the destroyed flag alone and marks the ended event emitted
when the snapshot ends the playlist. -/
theorem processChanged_state (ok : ℕ → ℕ → Bool) (st : TGState) (p : Playlist) :
    (processChanged ok st p).1.parsedPlaylist = some p ∧
    (processChanged ok st p).1.playlistEnded = p.properties.foundEndlist ∧
    (processChanged ok st p).1.destroyed = st.destroyed ∧
    (processChanged ok st p).1.endedEventEmitted
      = (st.endedEventEmitted || p.properties.foundEndlist) := by
  unfold processChanged
  dsimp only
  repeat' split
  all_goals simp [finalThen_state]

/-- A state whose stored snapshot agrees with the incoming one on segment
count and mediaSequence reports the playlist as unchanged. -/
theorem hasPlaylistChanged_false (st : TGState) (p old : Playlist)
    (hp : st.parsedPlaylist = some old)
    (hlen : old.segments.length = p.segments.length)
    (hms : old.properties.mediaSequence.getD 0 = p.properties.mediaSequence.getD 0) :
    hasPlaylistChanged st p = false := by
  simp [hasPlaylistChanged, hp, hlen, hms]

/-- Claim C7: a poll whose snapshot agrees with the previously processed one
on segment count and mediaSequence (0 when absent) is treated as unchanged:
the tick emits nothing and leaves the state untouched; and one poll-and-
schedule step is idempotent: repeating the step on the same playlist leaves
the resulting state unchanged and emits nothing, in particular no thumbnail. -/
theorem unchanged_playlist_idempotent (ok : ℕ → ℕ → Bool) (st : TGState) (p old : Playlist)
    (hd : st.destroyed = false) (he : st.playlistEnded = false)
    (hp : st.parsedPlaylist = some old)
    (hlen : old.segments.length = p.segments.length)
    (hms : old.properties.mediaSequence.getD 0 = p.properties.mediaSequence.getD 0) :
    grabStep ok st (some p) = (st, []) ∧
    ∀ (ok2 : ℕ → ℕ → Bool) (st2 : TGState) (p2 : Playlist),
      grabStep ok2 (grabStep ok2 st2 (some p2)).1 (some p2)
        = ((grabStep ok2 st2 (some p2)).1, []) := by
  constructor
  · have hch := hasPlaylistChanged_false st p old hp hlen hms
    simp [grabStep, hd, he, hch, finalThen]
  · intro ok2 st2 p2
    cases hd2 : st2.destroyed
    · cases he2 : st2.playlistEnded
      · by_cases hch2 : hasPlaylistChanged st2 p2 = true
        · -- changed: the first step runs processChanged
          have hrun : grabStep ok2 st2 (some p2) = processChanged ok2 st2 p2 := by
            simp [grabStep, hd2, he2, hch2]
          obtain ⟨h1, h2, h3, h4⟩ := processChanged_state ok2 st2 p2
          rw [hrun]
          cases hend : p2.properties.foundEndlist
          · have hch3 : hasPlaylistChanged (processChanged ok2 st2 p2).1 p2 = false := by
              simp [hasPlaylistChanged, h1]
            simp [grabStep, h3, hd2, h2, hend, hch3, finalThen]
          · rw [hend] at h2 h4
            simp [grabStep, h3, hd2, h2, h4, finalThen]
        · -- unchanged: the first step is a no-op
          have hch2f : hasPlaylistChanged st2 p2 = false := by
            rwa [Bool.not_eq_true] at hch2
          have hrun : grabStep ok2 st2 (some p2) = (st2, []) := by
            simp [grabStep, hd2, he2, hch2f, finalThen]
          rw [hrun]
          simp [grabStep, hd2, he2, hch2f, finalThen]
      · -- the playlist has already ended: early return plus one-shot event
        cases hm2 : st2.endedEventEmitted
        · have hrun : grabStep ok2 st2 (some p2)
              = ({ st2 with endedEventEmitted := true }, [TGEvent.playlistEnded]) := by
            simp [grabStep, hd2, he2, hm2, finalThen]
          rw [hrun]
          simp [grabStep, hd2, he2, finalThen]
        · have hrun : grabStep ok2 st2 (some p2) = (st2, []) := by
            simp [grabStep, hd2, he2, hm2, finalThen]
          rw [hrun]
          simp [grabStep, hd2, he2, hm2, finalThen]
    · simp [grabStep, hd2]

/-- Witness for unchanged_playlist_idempotent: a state that already processed
the example playlist, polled again with the same snapshot. -/
theorem unchanged_playlist_idempotent_witness :
    (exTgSeen.destroyed = false ∧ exTgSeen.playlistEnded = false ∧
      exTgSeen.parsedPlaylist = some exPlaylist ∧
      exPlaylist.segments.length = exPlaylist.segments.length ∧
      exPlaylist.properties.mediaSequence.getD 0 = exPlaylist.properties.mediaSequence.getD 0) ∧
    (grabStep exOk exTgSeen (some exPlaylist) = (exTgSeen, []) ∧
      ∀ (ok2 : ℕ → ℕ → Bool) (st2 : TGState) (p2 : Playlist),
        grabStep ok2 (grabStep ok2 st2 (some p2)).1 (some p2)
          = ((grabStep ok2 st2 (some p2)).1, [])) :=
  ⟨⟨by decide, by decide, by decide, rfl, rfl⟩,
    unchanged_playlist_idempotent exOk exTgSeen exPlaylist exPlaylist
      (by decide) (by decide) (by decide) rfl rfl⟩

/-- Claim C8: on a changed playlist with no usable last thumbnail location,
the next thumbnail time is 0 when initialThumbnailCount is unset (the source
treats an explicit 0 the same way), otherwise
max 0 (duration - initialThumbnailCount * interval); when the product exceeds
the duration the start clamps to 0. -/
theorem fresh_next_time_clamped (I : ℚ) (c : Option ℚ) (lastLoc : Option GThumb)
    (firstSN : ℕ) (segments : List Segment) (D : ℚ)
    (h : inWindowIdx lastLoc firstSN segments.length = none) :
    (c = none ∨ c = some 0 → nextThumbTime I c lastLoc firstSN segments D = some 0) ∧
    (∀ cv, c = some cv → cv ≠ 0 →
      nextThumbTime I c lastLoc firstSN segments D = some (max 0 (D - cv * I))) ∧
    (∀ cv, c = some cv → cv ≠ 0 → D < cv * I →
      nextThumbTime I c lastLoc firstSN segments D = some 0) := by
  have hbase : nextThumbTime I c lastLoc firstSN segments D
      = some (nextThumbTimeFresh I c D) := by
    unfold nextThumbTime
    rw [h]
  refine ⟨?_, ?_, ?_⟩
  · rintro (rfl | rfl) <;> simp [hbase, nextThumbTimeFresh]
  · rintro cv rfl hcv
    rw [hbase]
    simp [nextThumbTimeFresh, hcv]
  · rintro cv rfl hcv hlt
    rw [hbase]
    simp only [nextThumbTimeFresh, Option.getD_some, if_neg hcv]
    have hmx : max 0 (D - cv * I) = 0 := by
      rw [max_eq_left]
      linarith
    rw [hmx]

/-- Witness for fresh_next_time_clamped: no last location, one target of 3
initial thumbnails at interval 6 over a 12 second window. -/
theorem fresh_next_time_clamped_witness :
    inWindowIdx none 0 ([] : List Segment).length = none ∧
    (((some (3 : ℚ)) = none ∨ (some (3 : ℚ)) = some 0 →
        nextThumbTime 6 (some 3) none 0 [] 12 = some 0) ∧
      (∀ cv, (some (3 : ℚ)) = some cv → cv ≠ 0 →
        nextThumbTime 6 (some 3) none 0 [] 12 = some (max 0 (12 - cv * 6))) ∧
      (∀ cv, (some (3 : ℚ)) = some cv → cv ≠ 0 → 12 < cv * 6 →
        nextThumbTime 6 (some 3) none 0 [] 12 = some 0)) :=
  ⟨rfl, fresh_next_time_clamped 6 (some 3) none 0 [] 12 rfl⟩

/-- The getThumbnails allocation only appends to the store: every reference
below the old allocation frontier keeps its contents. -/
theorem getThumbnails_mem_old (l : List SegRecordRef) :
    ∀ (s : ThumbStore) (n : ℕ), n < s.next → (getThumbnails s l).1.mem n = s.mem n := by
  induction l with
  | nil => intro s n hn; rfl
  | cons sr rest ih =>
    intro s n hn
    simp only [getThumbnails]
    rw [ih _ n (Nat.lt_succ_of_lt hn)]
    dsimp only
    rw [if_neg (by omega)]

/-- Every segment object returned by getThumbnails carries a reference at or
above the old allocation frontier: the copies are fresh. -/
theorem getThumbnails_refs_fresh (l : List SegRecordRef) :
    ∀ s : ThumbStore, ∀ o ∈ (getThumbnails s l).2, s.next ≤ o.thumbsRef := by
  induction l with
  | nil => intro s o ho; simp [getThumbnails] at ho
  | cons sr rest ih =>
    intro s o ho
    simp only [getThumbnails] at ho
    rcases List.mem_cons.mp ho with h | h
    · subst h
      exact Nat.le_refl _
    · have h2 : s.next + 1 ≤ o.thumbsRef :=
        ih ⟨s.next + 1, fun m => if m = s.next then s.mem sr.thumbsRef else s.mem m⟩ o h
      omega

/-- The returned segment objects copy sn and removalTime positionally. -/
theorem getThumbnails_map_fields (l : List SegRecordRef) :
    ∀ s : ThumbStore,
      (getThumbnails s l).2.map SegRecordRef.sn = l.map SegRecordRef.sn ∧
      (getThumbnails s l).2.map SegRecordRef.removalTime = l.map SegRecordRef.removalTime := by
  induction l with
  | nil => intro s; exact ⟨rfl, rfl⟩
  | cons sr rest ih =>
    intro s
    simp only [getThumbnails]
    obtain ⟨h1, h2⟩ :=
      ih ⟨s.next + 1, fun m => if m = s.next then s.mem sr.thumbsRef else s.mem m⟩
    simp [h1, h2]

/-- The fresh array allocated for position i holds exactly the thumbnails the
internal record at position i held before the call. -/
theorem getThumbnails_copy (l : List SegRecordRef) :
    ∀ s : ThumbStore, (∀ sr ∈ l, sr.thumbsRef < s.next) →
      ∀ i (hi : i < l.length) (hi2 : i < (getThumbnails s l).2.length),
        (getThumbnails s l).1.mem (((getThumbnails s l).2.get ⟨i, hi2⟩).thumbsRef)
          = s.mem ((l.get ⟨i, hi⟩).thumbsRef) := by
  induction l with
  | nil => intro s hwf i hi hi2; exact absurd hi (by simp)
  | cons sr rest ih =>
    intro s hwf i hi hi2
    simp only [getThumbnails] at hi2 ⊢
    cases i with
    | zero =>
      simp only [List.get]
      rw [getThumbnails_mem_old rest _ s.next (Nat.lt_succ_self _)]
      dsimp only
      rw [if_pos rfl]
    | succ j =>
      simp only [List.get]
      have hwf1 : ∀ sr2 ∈ rest,
          sr2.thumbsRef
            < (⟨s.next + 1, fun m => if m = s.next then s.mem sr.thumbsRef else s.mem m⟩ :
                ThumbStore).next :=
        fun sr2 h2 => Nat.lt_succ_of_lt (hwf sr2 (List.mem_cons_of_mem _ h2))
      have hj := ih _ hwf1 j (by simpa using hi) (by simpa using hi2)
      rw [hj]
      dsimp only
      rw [if_neg (by have := hwf (rest.get ⟨j, by simpa using hi⟩) (List.mem_cons_of_mem _ (rest.get_mem _ _)); omega)]

/-- Claim C9: getThumbnails returns fresh segment objects that copy sn,
removalTime and the thumbnails array contents of the internal records, all of
whose array references are fresh (at or above the old allocation frontier),
so writing through any returned thumbnails array leaves the contents behind
every internal record reference unchanged. -/
theorem getThumbnails_returns_fresh_copies (s : ThumbStore) (l : List SegRecordRef)
    (hwf : ∀ sr ∈ l, sr.thumbsRef < s.next) :
    ((getThumbnails s l).2.map SegRecordRef.sn = l.map SegRecordRef.sn) ∧
    ((getThumbnails s l).2.map SegRecordRef.removalTime = l.map SegRecordRef.removalTime) ∧
    (∀ i (hi : i < l.length) (hi2 : i < (getThumbnails s l).2.length),
      (getThumbnails s l).1.mem (((getThumbnails s l).2.get ⟨i, hi2⟩).thumbsRef)
        = s.mem ((l.get ⟨i, hi⟩).thumbsRef)) ∧
    (∀ o ∈ (getThumbnails s l).2, s.next ≤ o.thumbsRef) ∧
    (∀ o ∈ (getThumbnails s l).2, ∀ v : List SThumb, ∀ sr ∈ l,
      (writeRef (getThumbnails s l).1 o.thumbsRef v).mem sr.thumbsRef
        = s.mem sr.thumbsRef) := by
  obtain ⟨hm1, hm2⟩ := getThumbnails_map_fields l s
  refine ⟨hm1, hm2, getThumbnails_copy l s hwf, getThumbnails_refs_fresh l s, ?_⟩
  intro o ho v sr hsr
  have h1 : s.next ≤ o.thumbsRef := getThumbnails_refs_fresh l s o ho
  have h2 : sr.thumbsRef < s.next := hwf sr hsr
  unfold writeRef
  dsimp only
  rw [if_neg (by omega)]
  exact getThumbnails_mem_old l s sr.thumbsRef h2

/-- Witness for getThumbnails_returns_fresh_copies on a store with one
allocated array and one internal record referring to it. -/
theorem getThumbnails_returns_fresh_copies_witness :
    (∀ sr ∈ exRecords, sr.thumbsRef < exStore.next) ∧
    (((getThumbnails exStore exRecords).2.map SegRecordRef.sn = exRecords.map SegRecordRef.sn) ∧
      ((getThumbnails exStore exRecords).2.map SegRecordRef.removalTime
        = exRecords.map SegRecordRef.removalTime) ∧
      (∀ i (hi : i < exRecords.length) (hi2 : i < (getThumbnails exStore exRecords).2.length),
        (getThumbnails exStore exRecords).1.mem
            (((getThumbnails exStore exRecords).2.get ⟨i, hi2⟩).thumbsRef)
          = exStore.mem ((exRecords.get ⟨i, hi⟩).thumbsRef)) ∧
      (∀ o ∈ (getThumbnails exStore exRecords).2, exStore.next ≤ o.thumbsRef) ∧
      (∀ o ∈ (getThumbnails exStore exRecords).2, ∀ v : List SThumb, ∀ sr ∈ exRecords,
        (writeRef (getThumbnails exStore exRecords).1 o.thumbsRef v).mem sr.thumbsRef
          = exStore.mem sr.thumbsRef)) :=
  ⟨by decide, getThumbnails_returns_fresh_copies exStore exRecords (by decide)⟩

/-- Claim C10: for a sequence number with no stored record,
getThumbnailsForSn returns an empty array when the number is strictly above
the timeline offset and null when it is at most the offset, including
equality with the offset. -/
theorem getThumbnailsForSn_boundary (st : SGState) (sn o : ℕ)
    (hnone : ∀ s ∈ st.segments, s.sn ≠ sn) (ho : st.offset = some o) :
    (o < sn → getThumbnailsForSn st sn = some []) ∧
    (sn ≤ o → getThumbnailsForSn st sn = none) := by
  have hfind : st.segments.find? (fun s => s.sn == sn) = none := by
    rw [List.find?_eq_none]
    intro s hs
    simpa using hnone s hs
  constructor
  · intro h
    simp [getThumbnailsForSn, getSnThumbnailsQ, hfind, ho, h]
  · intro h
    have h2 : ¬(o < sn) := by omega
    simp [getThumbnailsForSn, getSnThumbnailsQ, hfind, ho, h2]

/-- Witness for getThumbnailsForSn_boundary: the empty state with offset 0
queried at sequence number 1 (above the offset). -/
theorem getThumbnailsForSn_boundary_witness :
    (∀ s ∈ exSgEmpty.segments, s.sn ≠ 1) ∧ exSgEmpty.offset = some 0 ∧
    ((0 < 1 → getThumbnailsForSn exSgEmpty 1 = some []) ∧
      (1 ≤ 0 → getThumbnailsForSn exSgEmpty 1 = none)) :=
  ⟨by decide, by decide, getThumbnailsForSn_boundary exSgEmpty 1 0 (by decide) (by decide)⟩

end HLSThumb
